import Mathlib

/-!
Verification of the vr_aruco 3-D asset ingestion and transform pipeline.

This file gives a shallow embedding, in Lean 4, of the core of the
repository: the matrix utilities (`utils/math_utils.py`), the OBJ geometry
parser (`models/obj_loader.py`), and the material resolver / texture cache
(`models/material_loader.py`).  Real numbers of the Python source are
modelled as rationals (`ℚ`); Python dictionaries are modelled as
association lists with first-match lookup; Python exceptions are modelled
with `Except String`; the filesystem and the image decoder are modelled as
an explicit `Disk` record; the OpenGL texture-name generator is modelled as
a fresh-id counter.  Each definition is translated from the corresponding
Python function, keeping its name where Lean allows it.
-/

namespace VrAruco

/-! ## String primitives

Python's `str.strip`, `str.split()` (whitespace), `str.split("/")` and
`str.startswith("#")` are modelled structurally on the character list of
the string, with the same observable behaviour on the inputs the loaders
feed them. -/

/-- Split a character list at every occurrence of `c`, keeping empty
segments; models Python `s.split("/")` (which returns `[""]` on the empty
string and keeps empty parts between adjacent separators). -/
def splitChAux (c : Char) : List Char → List Char → List (List Char)
  | [], acc => [acc.reverse]
  | x :: xs, acc =>
    if x = c then acc.reverse :: splitChAux c xs []
    else splitChAux c xs (x :: acc)

/-- Python `s.split(sep)` for a one-character separator. -/
def splitOnChar (c : Char) (s : String) : List String :=
  (splitChAux c s.data []).map String.mk

/-- Split a character list on runs of whitespace, dropping empty segments;
models Python `s.split()` with no argument. -/
def splitWsAux : List Char → List Char → List (List Char)
  | [], acc => if acc = [] then [] else [acc.reverse]
  | x :: xs, acc =>
    if x.isWhitespace then
      (if acc = [] then splitWsAux xs [] else acc.reverse :: splitWsAux xs [])
    else splitWsAux xs (x :: acc)

/-- Python `line.split()`: whitespace-delimited tokens, no empty tokens. -/
def tokenize (s : String) : List String := (splitWsAux s.data []).map String.mk

/-- Python `line.strip()`: drop leading and trailing whitespace. -/
def strip (s : String) : String :=
  String.mk (((s.data.dropWhile Char.isWhitespace).reverse.dropWhile Char.isWhitespace).reverse)

/-- Python `line.startswith("#")`. -/
def startsWithHash (s : String) : Bool :=
  match s.data with
  | [] => false
  | c :: _ => c = '#'

/-! ## Numeric token parsing

`parseInt` models Python `int(token)` and `parseFloat` models Python
`float(token)` on plain decimal literals (optional sign, digits, optional
fractional part); the exotic float spellings (exponents, `inf`, `nan`,
underscores) are never exercised by the properties below. -/

/-- Value of a digit string, most significant digit first. -/
def digitsVal (cs : List Char) : Nat :=
  cs.foldl (fun a c => a * 10 + (c.toNat - 48)) 0

/-- True when `cs` is a non-empty string of decimal digits. -/
def isDigits (cs : List Char) : Bool :=
  decide (cs ≠ []) && cs.all Char.isDigit

/-- Python `int(token)`: optional sign followed by one or more digits. -/
def parseInt (s : String) : Option Int :=
  match s.data with
  | [] => none
  | c :: rest =>
    if c = '-' then
      if isDigits rest then some (-(digitsVal rest : Int)) else none
    else if c = '+' then
      if isDigits rest then some ((digitsVal rest : Int)) else none
    else
      if isDigits (c :: rest) then some ((digitsVal (c :: rest) : Int)) else none

/-- Digit-only strings evaluate to a rational. -/
def fracVal (whole fracPart : List Char) : ℚ :=
  (digitsVal whole : ℚ) + (digitsVal fracPart : ℚ) / (10 : ℚ) ^ fracPart.length

/-- Python `float(token)` on an unsigned decimal literal. -/
def parseFloatBody (cs : List Char) : Option ℚ :=
  match splitChAux '.' cs [] with
  | [whole] => if isDigits whole then some ((digitsVal whole : ℚ)) else none
  | [whole, fracPart] =>
    if (whole.all Char.isDigit && fracPart.all Char.isDigit) && (whole ≠ [] ∨ fracPart ≠ []) then
      some (fracVal whole fracPart)
    else none
  | _ => none

/-- Python `float(token)` on a plain decimal literal with optional sign. -/
def parseFloat (s : String) : Option ℚ :=
  match s.data with
  | [] => none
  | c :: rest =>
    if c = '-' then (parseFloatBody rest).map (fun q => -q)
    else if c = '+' then parseFloatBody rest
    else parseFloatBody (c :: rest)

/-- Python `[float(x) for x in tokens]`: all tokens must parse. -/
def parseFloats : List String → Option (List ℚ)
  | [] => some []
  | t :: ts =>
    match parseFloat t, parseFloats ts with
    | some x, some xs => some (x :: xs)
    | _, _ => none

/-! ## Dictionaries and paths -/

/-- Python dict assignment `d[k] = v`, modelled by shadowing; lookups see
the most recent binding. -/
def dictInsert {α : Type} (d : List (String × α)) (k : String) (v : α) :
    List (String × α) :=
  (k, v) :: d

/-- Python dict lookup `d[k]` / `k in d`. -/
def dictGet? {α : Type} (d : List (String × α)) (k : String) : Option α :=
  (d.find? (fun e => e.1 = k)).map (fun e => e.2)

/-- Lookup with a default value. -/
def dictGetD {α : Type} (d : List (String × α)) (k : String) (v : α) : α :=
  (dictGet? d k).getD v

/-- Concatenate path segments with a slash; models `os.path.join` for the
relative paths the loaders build. -/
def joinPath (base name : String) : String :=
  if base = "" then name else base ++ "/" ++ name

/-- Join a list of path segments with slashes. -/
def joinSegs : List String → String
  | [] => ""
  | [s] => s
  | s :: rest => s ++ "/" ++ joinSegs rest

/-- Directory part of a path; models `os.path.dirname` for the plain
relative paths used by the loaders. -/
def dirname (p : String) : String :=
  joinSegs ((splitOnChar '/' p).dropLast)

/-! ## Matrix utilities (`utils/math_utils.py`, class `MatrixUtils`)

A `numpy` 4x4 matrix is modelled as a function `Fin 4 → Fin 4 → ℚ`, and
`ndarray.flatten()` (row-major) as the explicit 16-element list
`[M 0 0, M 0 1, ..., M 3 3]`. -/

/-- Row-major flattening of a 4x4 matrix, as in `numpy.ndarray.flatten`. -/
def flatten4 (M : Fin 4 → Fin 4 → ℚ) : List ℚ :=
  [M 0 0, M 0 1, M 0 2, M 0 3,
   M 1 0, M 1 1, M 1 2, M 1 3,
   M 2 0, M 2 1, M 2 2, M 2 3,
   M 3 0, M 3 1, M 3 2, M 3 3]

/-- Entries of the projection matrix built by
`MatrixUtils.create_projection_matrix`: a zero matrix with the seven
assigned entries. -/
def projectionEntry (camera_matrix : Fin 3 → Fin 3 → ℚ) (shape : ℚ × ℚ)
    (near far : ℚ) (i j : Fin 4) : ℚ :=
  let fx := camera_matrix 0 0
  let fy := camera_matrix 1 1
  let cx := camera_matrix 0 2
  let cy := camera_matrix 1 2
  let width := shape.1
  let height := shape.2
  if i = 0 ∧ j = 0 then 2 * fx / width
  else if i = 1 ∧ j = 1 then 2 * fy / height
  else if i = 2 ∧ j = 0 then 1 - 2 * cx / width
  else if i = 2 ∧ j = 1 then 2 * cy / height - 1
  else if i = 2 ∧ j = 2 then -(far + near) / (far - near)
  else if i = 2 ∧ j = 3 then -1
  else if i = 3 ∧ j = 2 then -(2 * far * near) / (far - near)
  else 0

/-- `MatrixUtils.create_projection_matrix`: OpenGL projection matrix from
camera intrinsics, returned flattened. -/
def create_projection_matrix (camera_matrix : Fin 3 → Fin 3 → ℚ)
    (shape : ℚ × ℚ) (near far : ℚ) : List ℚ :=
  flatten4 (projectionEntry camera_matrix shape near far)

/-- `np.hstack((rotation_matrix, tvec))`: a 3x4 matrix whose first three
columns are the rotation and whose last column is the translation. -/
def hstack34 (R : Fin 3 → Fin 3 → ℚ) (t : Fin 3 → ℚ) (i : Fin 3) (j : Fin 4) : ℚ :=
  if h : (j : ℕ) < 3 then R i ⟨j, h⟩ else t i

/-- Product of a 3x3 matrix with a 3x4 matrix. -/
def mul33x34 (A : Fin 3 → Fin 3 → ℚ) (B : Fin 3 → Fin 4 → ℚ) (i : Fin 3) (j : Fin 4) : ℚ :=
  A i 0 * B 0 j + A i 1 * B 1 j + A i 2 * B 2 j

/-- `np.eye(4)` with its top three rows overwritten by a 3x4 matrix
(`eye_matrix[:3, :] = transform_matrix_4x4`). -/
def embed34 (T : Fin 3 → Fin 4 → ℚ) (i j : Fin 4) : ℚ :=
  if h : (i : ℕ) < 3 then T ⟨i, h⟩ j
  else if (i : ℕ) = (j : ℕ) then 1 else 0

/-- `cv2.Rodrigues` applied to the zero rotation vector.  The Rodrigues
conversion itself lives in the external vision library (out of scope); at
the zero vector the axis-angle exponential map is the identity rotation,
which is all `create_model_matrix` needs for the identity property. -/
def rodrigues_zero (i j : Fin 3) : ℚ :=
  if i = j then 1 else 0

/-- The 3x3 identity matrix, used as a trivial coordinate transform. -/
def idMat3 (i j : Fin 3) : ℚ :=
  if i = j then 1 else 0

/-- `MatrixUtils.create_model_matrix`, taking the rotation matrix produced
by the external `cv2.Rodrigues` call: build `transform @ [R | t]`, embed it
in `np.eye(4)`, transpose, and flatten.  The transposed flatten is written
out entry by entry: position `4*i+j` of the result holds entry `(j, i)` of
the embedded matrix. -/
def create_model_matrix (rotation_matrix : Fin 3 → Fin 3 → ℚ)
    (tvec : Fin 3 → ℚ) (transform_matrix : Fin 3 → Fin 3 → ℚ) : List ℚ :=
  let E := embed34 (mul33x34 transform_matrix (hstack34 rotation_matrix tvec))
  flatten4 (fun i j => E j i)

/-! ## Texture cache (`models/material_loader.py`, `MaterialLoader._load_texture`)

The filesystem and image decoder are modelled by a `Disk` record: `files`
maps a path to the lines of a text file (`none` when `os.path.exists` is
false), and `decodeOk` tells whether the `pygame` decode / OpenGL upload
sequence for the file at that path succeeds.  The OpenGL texture-name
generator `glGenTextures` is modelled as a fresh-id counter starting at 1
(GL texture names are nonzero), and the state also logs every performed
upload so that "at most one upload per path" is expressible. -/

/-- The external world seen by the loaders: text files on disk and the
decodability of image files. -/
structure Disk where
  files : String → Option (List String)
  decodeOk : String → Bool

/-- Mutable state of a `MaterialLoader`: its `texture_cache` dict, the next
fresh OpenGL texture name, and the log of performed uploads. -/
structure TexState where
  texture_cache : List (String × Nat)
  nextId : Nat
  uploads : List String
deriving DecidableEq

/-- State of a freshly constructed `MaterialLoader`. -/
def initTexState : TexState :=
  { texture_cache := [], nextId := 1, uploads := [] }

/-- `MaterialLoader._load_texture`: cached texture loading.  A cache hit
returns the stored handle unchanged; a missing file warns and returns the
sentinel handle 0; a failed decode is caught and returns 0; a successful
decode uploads the image, caches and returns a fresh nonzero handle.  The
Python body catches every exception, so the function is total. -/
def load_texture (d : Disk) (st : TexState) (texture_path : String) : Nat × TexState :=
  match dictGet? st.texture_cache texture_path with
  | some handle => (handle, st)
  | none =>
    if (d.files texture_path).isNone then (0, st)
    else if d.decodeOk texture_path then
      (st.nextId,
        { texture_cache := dictInsert st.texture_cache texture_path st.nextId,
          nextId := st.nextId + 1,
          uploads := st.uploads ++ [texture_path] })
    else (0, st)

/-- A session of texture loads: fold `load_texture` over a list of
requested paths, keeping only the evolving state. -/
def runLoads (d : Disk) (st : TexState) : List String → TexState
  | [] => st
  | p :: ps => runLoads d (load_texture d st p).2 ps

/-! ## Material resolver (`models/material_loader.py`, `MaterialLoader.load_mtl`) -/

/-- Value stored under a material property key: a list of floats, the raw
string tokens (fallback for non-numeric properties and texture-map keys),
or a resolved texture handle. -/
inductive MtlVal where
  | nums : List ℚ → MtlVal
  | strs : List String → MtlVal
  | tex : Nat → MtlVal
deriving DecidableEq

/-- A material record: a property dict. -/
def Mtl := List (String × MtlVal)

/-- The texture-map property keys recognized by `load_mtl`. -/
def textureKeys : List String :=
  ["map_Kd", "map_Ka", "map_Ks", "map_Ns", "map_d", "refl", "bump"]

/-- Store `v` under key `key` of material `name` (Python
`materials[name][key] = v`). -/
def setProp (materials : List (String × Mtl)) (name key : String) (v : MtlVal) :
    List (String × Mtl) :=
  dictInsert materials name (dictInsert (dictGetD materials name []) key v)

/-- Error message raised when a property line precedes the first `newmtl`. -/
def mtlHeaderErr : String := "MTL file must start with newmtl"

/-- Line loop of `MaterialLoader.load_mtl`: strip, skip blank and comment
lines, then dispatch on the first token.  `newmtl` opens a record (a
missing name is the Python `IndexError`, which the surrounding handler
turns into a load failure); any other line before the first `newmtl` is
fatal; texture-map keys store the raw tokens, resolve the path relative to
the library's directory and store the handle under `texture_id`; all other
lines store floats when every token parses and the raw tokens otherwise. -/
def load_mtl_aux (d : Disk) (base_path : String) :
    List String → List (String × Mtl) → Option String → TexState →
      Except String (List (String × Mtl) × TexState)
  | [], materials, _, st => .ok (materials, st)
  | line :: rest, materials, current_material, st =>
    let l := strip line
    if l = "" ∨ startsWithHash l then load_mtl_aux d base_path rest materials current_material st
    else
      match tokenize l with
      | [] => load_mtl_aux d base_path rest materials current_material st
      | key :: args =>
        if key = "newmtl" then
          match args with
          | name :: _ =>
            load_mtl_aux d base_path rest (dictInsert materials name []) (some name) st
          | [] => .error "newmtl line without a name"
        else
          match current_material with
          | none => .error mtlHeaderErr
          | some cur =>
            if key ∈ textureKeys then
              match args with
              | pathTok :: _ =>
                let texture_path := joinPath base_path pathTok
                let materials := setProp materials cur key (.strs args)
                let (handle, st') := load_texture d st texture_path
                load_mtl_aux d base_path rest
                  (setProp materials cur "texture_id" (.tex handle)) (some cur) st'
              | [] => .error "texture map line without a path"
            else
              match parseFloats args with
              | some xs =>
                load_mtl_aux d base_path rest (setProp materials cur key (.nums xs)) (some cur) st
              | none =>
                load_mtl_aux d base_path rest (setProp materials cur key (.strs args)) (some cur) st

/-- `MaterialLoader.load_mtl`: check the file exists, then run the line
loop with an empty material dict and no current material. -/
def load_mtl (d : Disk) (st : TexState) (filepath : String) :
    Except String (List (String × Mtl) × TexState) :=
  match d.files filepath with
  | none => .error "MTL file not found"
  | some lines => load_mtl_aux d (dirname filepath) lines [] none st

/-! ## Geometry parser (`models/obj_loader.py`, class `OBJModel`) -/

/-- A parsed face: per-corner 0-based index lists into the vertex, normal
and texture-coordinate pools (`-1` marks an absent slot), plus the current
material name at parse time. -/
structure Face where
  vertices : List Int
  normals : List Int
  tex_coords : List Int
  material : Option String
deriving DecidableEq

/-- A loaded model: the three pools, the face list, and the material dict. -/
structure ObjModel where
  vertices : List (List ℚ)
  normals : List (List ℚ)
  tex_coords : List (List ℚ)
  faces : List Face
  materials : List (String × Mtl)

/-- Optional slot `k` of a slash-split face corner: absent or empty means
`-1`, otherwise the token must parse as an integer, which is decremented
to 0-based (Python `if len(indices) > k and indices[k]: ... int(indices[k]) - 1`). -/
def slotIndex (indices : List String) (k : Nat) : Except String Int :=
  match indices.get? k with
  | none => .ok (-1)
  | some s =>
    if s = "" then .ok (-1)
    else
      match parseInt s with
      | some i => .ok (i - 1)
      | none => .error "invalid face index"

/-- One iteration of the `OBJModel._parse_face` corner loop: split the
corner on `/`, parse the required vertex index (0-based), and the optional
texture and normal slots.  Returns `(vertex, texcoord, normal)`. -/
def parse_corner (part : String) : Except String (Int × Int × Int) :=
  let indices := splitOnChar '/' part
  match parseInt (indices.headD "") with
  | none => .error "invalid face index"
  | some v =>
    match slotIndex indices 1, slotIndex indices 2 with
    | .ok t, .ok n => .ok (v - 1, t, n)
    | .error e, _ => .error e
    | _, .error e => .error e

/-- The `OBJModel._parse_face` loop over the corner tokens, accumulating
the per-corner triples in order. -/
def parse_face_aux : List String → List (Int × Int × Int) →
    Except String (List (Int × Int × Int))
  | [], acc => .ok acc
  | part :: rest, acc =>
    match parse_corner part with
    | .error e => .error e
    | .ok c => parse_face_aux rest (acc ++ [c])

/-- `OBJModel._parse_face`: parse the corner tokens of a face line into
the three parallel index lists and attach the current material. -/
def parse_face (face_parts : List String) (material : Option String) :
    Except String Face :=
  match parse_face_aux face_parts [] with
  | .error e => .error e
  | .ok cs =>
    .ok { vertices := cs.map (fun c => c.1),
          normals := cs.map (fun c => c.2.2),
          tex_coords := cs.map (fun c => c.2.1),
          material := material }

/-- Parser state threaded through the `OBJModel._load_model` line loop. -/
structure LoadSt where
  vertices : List (List ℚ)
  normals : List (List ℚ)
  tex_coords : List (List ℚ)
  faces : List Face
  materials : List (String × Mtl)
  current_material : Option String
  tex : TexState

/-- State at the start of `OBJModel._load_model`. -/
def initLoadSt : LoadSt :=
  { vertices := [], normals := [], tex_coords := [], faces := [],
    materials := [], current_material := none, tex := initTexState }

/-- Optional Y/Z swap of a parsed 3-vector (`[vertex[0], vertex[2],
vertex[1]]`); fewer than three components is the Python `IndexError`,
which the surrounding handler turns into a load failure. -/
def swapYZ (v : List ℚ) : Except String (List ℚ) :=
  match v with
  | [x, y, z] => .ok [x, z, y]
  | _ => .error "vector too short to swap"

/-- Dispatch of one tokenized line of `OBJModel._load_model`.  `v`/`vn`
parse up to three floats (`parts[1:4]`) with the optional swap, `vt`
parses up to two floats (`parts[1:3]`), `usemtl`/`usemat` set the current
material, `mtllib` resolves the library path against the OBJ file's
directory and replaces the material dict with the resolver's result, `f`
parses a face, and any other directive is ignored. -/
def process_tokens (d : Disk) (base_path : String) (swap_yz : Bool)
    (st : LoadSt) : List String → Except String LoadSt
  | [] => .ok st
  | key :: args =>
    if key = "v" then
      match parseFloats (args.take 3) with
      | none => .error "invalid vertex line"
      | some vertex =>
        if swap_yz then
          match swapYZ vertex with
          | .error e => .error e
          | .ok vertex' => .ok { st with vertices := st.vertices ++ [vertex'] }
        else .ok { st with vertices := st.vertices ++ [vertex] }
    else if key = "vn" then
      match parseFloats (args.take 3) with
      | none => .error "invalid normal line"
      | some normal =>
        if swap_yz then
          match swapYZ normal with
          | .error e => .error e
          | .ok normal' => .ok { st with normals := st.normals ++ [normal'] }
        else .ok { st with normals := st.normals ++ [normal] }
    else if key = "vt" then
      match parseFloats (args.take 2) with
      | none => .error "invalid texture coordinate line"
      | some tc => .ok { st with tex_coords := st.tex_coords ++ [tc] }
    else if key = "usemtl" ∨ key = "usemat" then
      match args with
      | name :: _ => .ok { st with current_material := some name }
      | [] => .error "usemtl line without a name"
    else if key = "mtllib" then
      match args with
      | name :: _ =>
        match load_mtl d st.tex (joinPath base_path name) with
        | .error e => .error e
        | .ok (mats, tex') => .ok { st with materials := mats, tex := tex' }
      | [] => .error "mtllib line without a name"
    else if key = "f" then
      match parse_face args st.current_material with
      | .error e => .error e
      | .ok face => .ok { st with faces := st.faces ++ [face] }
    else .ok st

/-- One line of `OBJModel._load_model`: strip, skip blank and comment
lines, then dispatch on the tokens. -/
def process_line (d : Disk) (base_path : String) (swap_yz : Bool)
    (st : LoadSt) (line : String) : Except String LoadSt :=
  let l := strip line
  if l = "" ∨ startsWithHash l then .ok st
  else process_tokens d base_path swap_yz st (tokenize l)

/-- The `OBJModel._load_model` line loop; the first raised error aborts
the whole load. -/
def processLines (d : Disk) (base_path : String) (swap_yz : Bool) :
    LoadSt → List String → Except String LoadSt
  | st, [] => .ok st
  | st, line :: rest =>
    match process_line d base_path swap_yz st line with
    | .error e => .error e
    | .ok st' => processLines d base_path swap_yz st' rest

/-- `OBJModel._load_model`: check the file exists, run the line loop, and
assemble the model.  (The final `numpy` array conversion only freezes the
pools and is identity on the data.) -/
def load_model (d : Disk) (filepath : String) (swap_yz : Bool) :
    Except String ObjModel :=
  match d.files filepath with
  | none => .error "OBJ file not found"
  | some lines =>
    match processLines d (dirname filepath) swap_yz initLoadSt lines with
    | .error e => .error e
    | .ok st =>
      .ok { vertices := st.vertices, normals := st.normals,
            tex_coords := st.tex_coords, faces := st.faces,
            materials := st.materials }

/-! ## Geometry compiler (`OBJModel._render_face`)

The per-corner emission guards every pool access with
`idx >= 0 and idx < len(pool)`.  To make the guard's safety provable, the
pool dereferences performed by the emission loop are recorded explicitly:
pool `0` is the vertex pool, `1` the normal pool, `2` the texcoord pool. -/

/-- A dereference of position `idx` of one of the three pools. -/
structure Access where
  pool : Nat
  idx : Nat
deriving DecidableEq

/-- Pool dereferences performed for one corner of
`OBJModel._render_face`: each of the three accesses happens exactly when
its guard `idx >= 0 and idx < len(pool)` passes. -/
def corner_accesses (m : ObjModel) (v_idx n_idx t_idx : Int) : List Access :=
  (if 0 ≤ n_idx ∧ n_idx < (m.normals.length : Int) then [⟨1, n_idx.toNat⟩] else [])
    ++ (if 0 ≤ t_idx ∧ t_idx < (m.tex_coords.length : Int) then [⟨2, t_idx.toNat⟩] else [])
    ++ (if 0 ≤ v_idx ∧ v_idx < (m.vertices.length : Int) then [⟨0, v_idx.toNat⟩] else [])

/-- Pool dereferences performed by the `OBJModel._render_face` corner loop
(`for i in range(len(face["vertices"]))`).  A corner whose own index lists
are too short raises in Python before touching any pool, so it contributes
no pool access. -/
def render_face_accesses (m : ObjModel) (face : Face) : List Access :=
  (List.range face.vertices.length).flatMap (fun i =>
    match face.vertices.get? i, face.normals.get? i, face.tex_coords.get? i with
    | some v_idx, some n_idx, some t_idx => corner_accesses m v_idx n_idx t_idx
    | _, _, _ => [])

/-! ## Concrete example worlds used by the witnesses and counterexamples -/

/-- A small disk holding an OBJ file with two material libraries, a single
vertex, a two-corner face and a one-corner face with a 1-based index
pointing past the vertex pool. -/
def dObjEx : Disk :=
  { files := fun p =>
      if p = "m.obj" then some ["mtllib a.mtl", "mtllib b.mtl", "v 0 0 0", "f 1 2", "f 5"]
      else if p = "a.mtl" then some ["newmtl matA"]
      else if p = "b.mtl" then some ["newmtl matB"]
      else none,
    decodeOk := fun _ => false }

/-- The first non-blank, non-comment line of a file, tokenized; mirrors the
skip logic of the loaders' line loops.  A property line occurs before the
first `newmtl` line exactly when the first effective line of the file is
not a `newmtl` line. -/
def firstEffectiveTokens : List String → Option (List String)
  | [] => none
  | line :: rest =>
    let l := strip line
    if l = "" ∨ startsWithHash l then firstEffectiveTokens rest
    else
      match tokenize l with
      | [] => firstEffectiveTokens rest
      | ts => some ts

/-- Camera intrinsics of the end-to-end projection scenario:
`fx = fy = 800`, `cx = 320`, `cy = 240`. -/
def camEx (i j : Fin 3) : ℚ :=
  if i = 0 ∧ j = 0 then 800
  else if i = 1 ∧ j = 1 then 800
  else if i = 0 ∧ j = 2 then 320
  else if i = 1 ∧ j = 2 then 240
  else if i = 2 ∧ j = 2 then 1
  else 0

/-- A disk on which every path exists and decodes. -/
def dAllOk : Disk :=
  { files := fun _ => some [], decodeOk := fun _ => true }

/-- A disk on which no path exists. -/
def dNone : Disk :=
  { files := fun _ => none, decodeOk := fun _ => false }

/-- Loader state after one successful texture upload of path `a`. -/
def stOneLoad : TexState :=
  { texture_cache := [("a", 1)], nextId := 2, uploads := ["a"] }

/-- A disk holding a material library whose first effective line is a
property line. -/
def dMtlHeadless : Disk :=
  { files := fun p => if p = "m.mtl" then some ["# comment", "Kd 1 0 0"] else none,
    decodeOk := fun _ => false }

/-- A one-vertex model used to exercise the emission guards. -/
def mOneVertex : ObjModel :=
  { vertices := [[0, 0, 0]], normals := [], tex_coords := [],
    faces := [], materials := [] }

/-- A face referencing vertex 0 with both optional slots absent. -/
def fOneCorner : Face :=
  { vertices := [0], normals := [-1], tex_coords := [-1], material := none }

/-- The face parsed from the corner tokens `1/2/3`, `4//5`, `6`. -/
def fWit : Face :=
  { vertices := [0, 3, 5], normals := [2, 4, -1], tex_coords := [1, -1, -1],
    material := some "mat" }

/-- The face parsed from the single corner token `5`. -/
def fC4 : Face :=
  { vertices := [4], normals := [-1], tex_coords := [-1], material := none }

/-- A loader state already holding a material named `matB`. -/
def stPrev : LoadSt :=
  { initLoadSt with materials := [("matB", [])] }

/-! ## Lemmas about the face parser -/

/-- Accumulator lemma for the `_parse_face` corner loop. -/
theorem parse_face_aux_append (parts : List String) (acc : List (Int × Int × Int)) :
    parse_face_aux parts acc = (parse_face_aux parts []).map (fun cs => acc ++ cs) := by
  induction parts generalizing acc with
  | nil => simp [parse_face_aux, Except.map]
  | cons part rest ih =>
    simp only [parse_face_aux]
    cases h : parse_corner part with
    | error e => simp [Except.map]
    | ok c =>
      dsimp only
      rw [ih (acc ++ [c]), ih ([] ++ [c])]
      cases parse_face_aux rest [] <;> simp [Except.map]

/-- Shape of a successful `_parse_face` corner loop: one triple per corner
token, in order. -/
theorem parse_face_aux_spec (parts : List String) (cs : List (Int × Int × Int))
    (h : parse_face_aux parts [] = .ok cs) :
    cs.length = parts.length ∧
      ∀ i, i < parts.length →
        ∃ c, parse_corner (parts.getD i "") = .ok c ∧ cs.get? i = some c := by
  induction parts generalizing cs with
  | nil =>
    simp only [parse_face_aux] at h
    cases h
    simp
  | cons part rest ih =>
    simp only [parse_face_aux] at h
    cases hc : parse_corner part with
    | error e => rw [hc] at h; cases h
    | ok c =>
      rw [hc] at h
      dsimp only at h
      rw [parse_face_aux_append] at h
      cases hr : parse_face_aux rest [] with
      | error e => rw [hr] at h; cases h
      | ok cs' =>
        rw [hr] at h
        simp only [Except.map] at h
        cases h
        obtain ⟨hlen, hcorr⟩ := ih cs' hr
        refine ⟨by simpa using hlen, ?_⟩
        intro i hi
        cases i with
        | zero => exact ⟨c, by simpa using hc, by simp⟩
        | succ j =>
          obtain ⟨c', h1, h2⟩ := hcorr j (by simpa using hi)
          exact ⟨c', by simpa using h1, by simpa using h2⟩

/-- A successful corner parse determines its fields: the vertex is the
parsed first slot minus one, and the optional slots come from `slotIndex`. -/
theorem parse_corner_fields (part : String) (v t n : Int)
    (h : parse_corner part = .ok (v, t, n)) :
    (∃ k, parseInt ((splitOnChar '/' part).headD "") = some k ∧ v = k - 1) ∧
      slotIndex (splitOnChar '/' part) 1 = .ok t ∧
      slotIndex (splitOnChar '/' part) 2 = .ok n := by
  simp only [parse_corner] at h
  cases hp : parseInt ((splitOnChar '/' part).headD "") with
  | none => rw [hp] at h; cases h
  | some k =>
    rw [hp] at h
    dsimp only at h
    cases h1 : slotIndex (splitOnChar '/' part) 1 with
    | error e =>
      rw [h1] at h
      cases h2 : slotIndex (splitOnChar '/' part) 2 with
      | error e2 => rw [h2] at h; cases h
      | ok n2 => rw [h2] at h; cases h
    | ok t' =>
      rw [h1] at h
      cases h2 : slotIndex (splitOnChar '/' part) 2 with
      | error e => rw [h2] at h; cases h
      | ok n' =>
        rw [h2] at h
        dsimp only at h
        have hv : k - 1 = v ∧ t' = t ∧ n' = n := by
          have := Except.ok.inj h
          exact ⟨congrArg Prod.fst this, congrArg (fun p => p.2.1) this,
            congrArg (fun p => p.2.2) this⟩
        obtain ⟨hv1, hv2, hv3⟩ := hv
        subst hv1; subst hv2; subst hv3
        exact ⟨⟨k, rfl, rfl⟩, rfl, rfl⟩

/-- An absent or empty optional slot is recorded as `-1`. -/
theorem slotIndex_omitted (indices : List String) (k : Nat)
    (h : indices.get? k = none ∨ indices.get? k = some "") :
    slotIndex indices k = .ok (-1) := by
  unfold slotIndex
  rcases h with h | h
  · rw [h]
  · rw [h]; simp

/-- C10 helper: a successfully parsed face has its three index lists of
equal length `parts.length`, entries corresponding corner by corner. -/
theorem parse_face_ok_spec (parts : List String) (mat : Option String) (f : Face)
    (h : parse_face parts mat = .ok f) :
    ∃ cs, parse_face_aux parts [] = .ok cs ∧ cs.length = parts.length ∧
      f.vertices = cs.map (fun c => c.1) ∧ f.normals = cs.map (fun c => c.2.2) ∧
      f.tex_coords = cs.map (fun c => c.2.1) ∧ f.material = mat := by
  unfold parse_face at h
  cases haux : parse_face_aux parts [] with
  | error e => rw [haux] at h; cases h
  | ok cs =>
    rw [haux] at h
    dsimp only at h
    cases h
    exact ⟨cs, rfl, (parse_face_aux_spec parts cs haux).1, rfl, rfl, rfl, rfl⟩

/-- C10: for every face line with n corner tokens, the parsed face record
contains exactly three index lists (vertices, normals, tex_coords), each of
length exactly n, whose i-th entries all come from the i-th corner token in
order, and omitted texcoord/normal slots are recorded as -1.  This holds
for every face the parser accepts. -/
theorem parse_face_parallel_lists (parts : List String) (mat : Option String)
    (f : Face) (h : parse_face parts mat = .ok f) :
    f.vertices.length = parts.length ∧ f.normals.length = parts.length ∧
      f.tex_coords.length = parts.length ∧
      (∀ i, i < parts.length →
        ∃ v t n, parse_corner (parts.getD i "") = .ok (v, t, n) ∧
          f.vertices.get? i = some v ∧ f.tex_coords.get? i = some t ∧
            f.normals.get? i = some n) ∧
      (∀ i, i < parts.length →
        ((splitOnChar '/' (parts.getD i "")).get? 1 = none ∨
            (splitOnChar '/' (parts.getD i "")).get? 1 = some "") →
          f.tex_coords.get? i = some (-1)) ∧
      (∀ i, i < parts.length →
        ((splitOnChar '/' (parts.getD i "")).get? 2 = none ∨
            (splitOnChar '/' (parts.getD i "")).get? 2 = some "") →
          f.normals.get? i = some (-1)) := by
  obtain ⟨cs, haux, hlen, hfv, hfn, hft, -⟩ := parse_face_ok_spec parts mat f h
  have hco := (parse_face_aux_spec parts cs haux).2
  have corr : ∀ i, i < parts.length →
      ∃ v t n, parse_corner (parts.getD i "") = .ok (v, t, n) ∧
        f.vertices.get? i = some v ∧ f.tex_coords.get? i = some t ∧
          f.normals.get? i = some n := by
    intro i hi
    obtain ⟨c, hc, hcs⟩ := hco i hi
    exact ⟨c.1, c.2.1, c.2.2, hc, by rw [hfv, List.get?_map, hcs]; rfl,
      by rw [hft, List.get?_map, hcs]; rfl, by rw [hfn, List.get?_map, hcs]; rfl⟩
  refine ⟨by simp [hfv, hlen], by simp [hfn, hlen], by simp [hft, hlen], corr, ?_, ?_⟩
  · intro i hi hsl
    obtain ⟨v, t, n, hc, -, ht, -⟩ := corr i hi
    have := (parse_corner_fields _ v t n hc).2.1
    rw [slotIndex_omitted _ 1 hsl] at this
    cases this
    exact ht
  · intro i hi hsl
    obtain ⟨v, t, n, hc, -, -, hn⟩ := corr i hi
    have := (parse_corner_fields _ v t n hc).2.2
    rw [slotIndex_omitted _ 2 hsl] at this
    cases this
    exact hn

/-- C10 witness: the corner tokens `1/2/3`, `4//5`, `6` parse to `fWit`,
whose three index lists all have length 3, and the omitted slots of the
second and third corners are recorded as -1. -/
theorem parse_face_parallel_lists_witness :
    fWit.vertices.length = 3 ∧ fWit.normals.length = 3 ∧
      fWit.tex_coords.length = 3 ∧ fWit.tex_coords.get? 1 = some (-1) ∧
      fWit.normals.get? 2 = some (-1) := by
  have h := parse_face_parallel_lists ["1/2/3", "4//5", "6"] (some "mat") fWit rfl
  exact ⟨h.1, h.2.1, h.2.2.1, h.2.2.2.2.1 1 (by decide) (by decide),
    h.2.2.2.2.2 2 (by decide) (by decide)⟩

/-- Splitting on a character that does not occur yields one segment. -/
theorem splitChAux_no_sep (c : Char) (cs acc : List Char) (h : ∀ x ∈ cs, x ≠ c) :
    splitChAux c cs acc = [acc.reverse ++ cs] := by
  induction cs generalizing acc with
  | nil => simp [splitChAux]
  | cons x xs ih =>
    simp only [splitChAux]
    rw [if_neg (h x (by simp))]
    rw [ih (x :: acc) (fun y hy => h y (by simp [hy]))]
    simp

/-- A string without the separator splits into itself alone. -/
theorem splitOnChar_no_sep (c : Char) (s : String) (h : ∀ x ∈ s.data, x ≠ c) :
    splitOnChar c s = [s] := by
  unfold splitOnChar
  rw [splitChAux_no_sep c s.data [] h]
  rfl

/-- `parseInt` succeeds on every non-empty all-digit token. -/
theorem parseInt_digits (s : String) (h : isDigits s.data = true) :
    parseInt s = some ((digitsVal s.data : Int)) := by
  unfold parseInt
  cases hd : s.data with
  | nil => rw [hd] at h; simp [isDigits] at h
  | cons c rest =>
    rw [hd] at h
    have hall : (c :: rest).all Char.isDigit = true := by
      simp only [isDigits, Bool.and_eq_true] at h
      exact h.2
    have hc : c.isDigit = true := by
      simp only [List.all_cons, Bool.and_eq_true] at hall
      exact hall.1
    have hne1 : ¬c = '-' := by intro he; rw [he] at hc; exact absurd hc (by decide)
    have hne2 : ¬c = '+' := by intro he; rw [he] at hc; exact absurd hc (by decide)
    dsimp only
    rw [if_neg hne1, if_neg hne2, if_pos h]

/-- An all-digit corner token parses as a bare 0-based vertex index with
both optional slots absent. -/
theorem parse_corner_digits (p : String) (h : isDigits p.data = true) :
    parse_corner p = .ok ((digitsVal p.data : Int) - 1, -1, -1) := by
  have hall : p.data.all Char.isDigit = true := by
    simp only [isDigits, Bool.and_eq_true] at h
    exact h.2
  have hsep : ∀ x ∈ p.data, x ≠ '/' := by
    intro x hx he
    have hd : x.isDigit = true := by
      rw [List.all_eq_true] at hall
      exact hall x hx
    rw [he] at hd
    exact absurd hd (by decide)
  unfold parse_corner
  rw [splitOnChar_no_sep '/' p hsep]
  simp only [List.headD]
  rw [parseInt_digits p h]
  rfl

/-- When every corner parses, the loop returns one triple per corner. -/
theorem parse_face_aux_map (g : String → Int × Int × Int) (parts : List String)
    (h : ∀ p ∈ parts, parse_corner p = .ok (g p)) :
    parse_face_aux parts [] = .ok (parts.map g) := by
  induction parts with
  | nil => rfl
  | cons part rest ih =>
    simp only [parse_face_aux]
    rw [h part (by simp)]
    dsimp only
    rw [parse_face_aux_append, ih (fun p hp => h p (by simp [hp]))]
    simp [Except.map]

/-- C3 (amended): the face parser imposes no minimum corner count.  Any
list of non-empty all-digit corner tokens — of any length, including 0, 1
or 2 — parses successfully into a face with exactly one corner per token;
only an index token that fails integer parsing aborts the load. -/
theorem parse_face_no_min_corners (parts : List String) (mat : Option String)
    (h : ∀ p ∈ parts, isDigits p.data = true) :
    parse_face parts mat =
      .ok { vertices := parts.map (fun p => (digitsVal p.data : Int) - 1),
            normals := parts.map (fun _ => -1),
            tex_coords := parts.map (fun _ => -1),
            material := mat } := by
  unfold parse_face
  rw [parse_face_aux_map (fun p => ((digitsVal p.data : Int) - 1, -1, -1)) parts
    (fun p hp => parse_corner_digits p (h p hp))]
  dsimp only
  rw [List.map_map, List.map_map, List.map_map]
  rfl

/-- C3 witness: the two-corner face line `f 1 2` is accepted by the face
parser and produces a two-corner face, so no minimum of three corners is
enforced. -/
theorem parse_face_no_min_corners_witness :
    (∀ p ∈ (["1", "2"] : List String), isDigits p.data = true) ∧
      parse_face ["1", "2"] none =
        .ok { vertices := [0, 1], normals := [-1, -1], tex_coords := [-1, -1],
              material := none } := by
  refine ⟨by decide, ?_⟩
  rw [parse_face_no_min_corners ["1", "2"] none (by decide)]
  exact congrArg Except.ok (by decide)

/-- C3 counterexample: a geometry file containing the face line `f 1 2`
(two corners) and even `f 5` (one corner) loads successfully — the whole
load does not fail, and a model holding a two-corner face is produced. -/
theorem short_face_accepted_cex :
    (load_model dObjEx "m.obj" false).toOption.map
      (fun m => m.faces.map (fun f => f.vertices.length)) = some [2, 1] := by
  decide

/-- C4 (amended): the face parser records every vertex index exactly as
the parsed 1-based token value minus one, with no validation against the
pool sizes; out-of-range indices are not rejected and survive into the
loaded model. -/
theorem parse_face_indices_unchecked (parts : List String) (mat : Option String)
    (f : Face) (h : parse_face parts mat = .ok f) :
    ∀ i, i < parts.length →
      ∃ k, parseInt ((splitOnChar '/' (parts.getD i "")).headD "") = some k ∧
        f.vertices.get? i = some (k - 1) := by
  intro i hi
  obtain ⟨cs, haux, hlen, hfv, -, -, -⟩ := parse_face_ok_spec parts mat f h
  obtain ⟨c, hc, hcs⟩ := (parse_face_aux_spec parts cs haux).2 i hi
  obtain ⟨⟨k, hk, hv⟩, -, -⟩ := parse_corner_fields _ c.1 c.2.1 c.2.2 hc
  refine ⟨k, hk, ?_⟩
  rw [hfv, List.get?_map, hcs]
  show some c.1 = some (k - 1)
  rw [hv]

/-- C4 witness: the corner token `5` of a one-vertex file is recorded as
index 4, far beyond the pool, without being rejected. -/
theorem parse_face_indices_unchecked_witness :
    parse_face ["5"] none = .ok fC4 ∧ fC4.vertices.get? 0 = some 4 := by
  refine ⟨rfl, ?_⟩
  obtain ⟨k, hk, hv⟩ := parse_face_indices_unchecked ["5"] none fC4 rfl 0 (by decide)
  have hk5 : some (5 : Int) = some k := by rw [← hk]; rfl
  obtain rfl : (5 : Int) = k := Option.some.inj hk5
  exact hv

/-- C4 counterexample: the geometry file with a single vertex and the face
line `f 5` is accepted by the parser, producing a model whose face holds
the 0-based index 4 with a vertex pool of size 1 — the face is not
rejected even though the index is outside `[0, 1)`. -/
theorem out_of_range_index_accepted_cex :
    (load_model dObjEx "m.obj" false).toOption.map
      (fun m => (m.vertices.length, m.faces.map (fun f => f.vertices))) =
      some (1, [[0, 1], [4]]) := by
  decide

/-- C2 (amended): an `mtllib name` line resolves `name` relative to the
object file's directory, invokes the material resolver on it, and REPLACES
the model's material map with the resolver's result — materials obtained
from an earlier `mtllib` line are discarded, not merged. -/
theorem mtllib_replaces_materials (d : Disk) (base_path name : String)
    (swap_yz : Bool) (st : LoadSt) (rest : List String)
    (mats : List (String × Mtl)) (tex' : TexState)
    (hload : load_mtl d st.tex (joinPath base_path name) = .ok (mats, tex')) :
    process_tokens d base_path swap_yz st ("mtllib" :: name :: rest) =
      .ok { st with materials := mats, tex := tex' } := by
  simp only [process_tokens]
  rw [if_neg (by decide : ¬("mtllib" : String) = "v"),
    if_neg (by decide : ¬("mtllib" : String) = "vn"),
    if_neg (by decide : ¬("mtllib" : String) = "vt"),
    if_neg (by decide : ¬(("mtllib" : String) = "usemtl" ∨ ("mtllib" : String) = "usemat"))]
  rw [if_pos trivial]
  rw [hload]

/-- C2 witness for the amended claim: processing `mtllib a.mtl` on a state
that already holds material `matB` resolves `a.mtl` through the material
resolver and leaves exactly the resolver's result (only `matA`) in the
material map. -/
theorem mtllib_replaces_materials_witness :
    load_mtl dObjEx initLoadSt.tex (joinPath "" "a.mtl") =
        .ok ([("matA", [])], initTexState) ∧
      process_tokens dObjEx "" false stPrev ["mtllib", "a.mtl"] =
        .ok { stPrev with materials := [("matA", [])], tex := initTexState } :=
  ⟨rfl, mtllib_replaces_materials dObjEx "" "a.mtl" false stPrev []
    [("matA", [])] initTexState rfl⟩

/-- C2 counterexample: after loading an OBJ file whose two `mtllib` lines
resolve to libraries defining `matA` and `matB` respectively, the material
`matA` from the earlier line is no longer present in the model's material
map — the later line replaced the map instead of merging into it. -/
theorem mtllib_overwrites_cex :
    (load_model dObjEx "m.obj" false).toOption.map (fun m =>
      ((dictGet? m.materials "matA").isSome, (dictGet? m.materials "matB").isSome)) =
      some (false, true) := by
  decide

/-- Every access produced for a corner comes from exactly one of the three
guarded emissions, with its guard known to hold. -/
theorem corner_accesses_cases (m : ObjModel) (v_idx n_idx t_idx : Int) (a : Access)
    (ha : a ∈ corner_accesses m v_idx n_idx t_idx) :
    (a = ⟨1, n_idx.toNat⟩ ∧ 0 ≤ n_idx ∧ n_idx < (m.normals.length : Int)) ∨
      (a = ⟨2, t_idx.toNat⟩ ∧ 0 ≤ t_idx ∧ t_idx < (m.tex_coords.length : Int)) ∨
      (a = ⟨0, v_idx.toNat⟩ ∧ 0 ≤ v_idx ∧ v_idx < (m.vertices.length : Int)) := by
  unfold corner_accesses at ha
  rcases List.mem_append.mp ha with h | h
  · rcases List.mem_append.mp h with h' | h'
    · by_cases hg : 0 ≤ n_idx ∧ n_idx < (m.normals.length : Int)
      · rw [if_pos hg] at h'
        exact Or.inl ⟨List.mem_singleton.mp h', hg⟩
      · rw [if_neg hg] at h'
        simp at h'
    · by_cases hg : 0 ≤ t_idx ∧ t_idx < (m.tex_coords.length : Int)
      · rw [if_pos hg] at h'
        exact Or.inr (Or.inl ⟨List.mem_singleton.mp h', hg⟩)
      · rw [if_neg hg] at h'
        simp at h'
  · by_cases hg : 0 ≤ v_idx ∧ v_idx < (m.vertices.length : Int)
    · rw [if_pos hg] at h
      exact Or.inr (Or.inr ⟨List.mem_singleton.mp h, hg⟩)
    · rw [if_neg hg] at h
      simp at h

/-- Any member of the per-corner body of the emission loop comes from some
corner's guarded accesses. -/
theorem render_face_body_accesses (m : ObjModel) (face : Face) (i : Nat) (a : Access)
    (ha : a ∈ (match face.vertices.get? i, face.normals.get? i, face.tex_coords.get? i with
      | some v_idx, some n_idx, some t_idx => corner_accesses m v_idx n_idx t_idx
      | _, _, _ => ([] : List Access))) :
    ∃ v n t, a ∈ corner_accesses m v n t := by
  revert ha
  cases face.vertices.get? i <;> cases face.normals.get? i <;>
    cases face.tex_coords.get? i <;> intro ha <;>
    first
      | exact ⟨_, _, _, ha⟩
      | simp at ha

/-- C9: face emission never dereferences outside the vertex, normal or
texcoord pools: every pool access performed by the corner loop is within
the bounds of its pool, for every model and every face whatsoever, and an
index failing its guard contributes no access to its pool (the attribute
or position is silently skipped). -/
theorem render_face_pool_safety (m : ObjModel) (face : Face) :
    (∀ a ∈ render_face_accesses m face,
        (a.pool = 0 → a.idx < m.vertices.length) ∧
        (a.pool = 1 → a.idx < m.normals.length) ∧
        (a.pool = 2 → a.idx < m.tex_coords.length)) ∧
      (∀ v_idx n_idx t_idx : Int, ∀ a ∈ corner_accesses m v_idx n_idx t_idx,
        (¬(0 ≤ n_idx ∧ n_idx < (m.normals.length : Int)) → a.pool ≠ 1) ∧
        (¬(0 ≤ t_idx ∧ t_idx < (m.tex_coords.length : Int)) → a.pool ≠ 2) ∧
        (¬(0 ≤ v_idx ∧ v_idx < (m.vertices.length : Int)) → a.pool ≠ 0)) := by
  constructor
  · intro a ha
    unfold render_face_accesses at ha
    rw [List.mem_flatMap] at ha
    obtain ⟨i, -, hmem⟩ := ha
    obtain ⟨v, n, t, hc⟩ := render_face_body_accesses m face i a hmem
    rcases corner_accesses_cases m v n t a hc with ⟨rfl, hg⟩ | ⟨rfl, hg⟩ | ⟨rfl, hg⟩ <;>
      (refine ⟨?_, ?_, ?_⟩ <;> intro hp <;> dsimp only at hp ⊢ <;> omega)
  · intro v_idx n_idx t_idx a ha
    rcases corner_accesses_cases m v_idx n_idx t_idx a ha with ⟨rfl, hg⟩ | ⟨rfl, hg⟩ | ⟨rfl, hg⟩
    · exact ⟨fun hng => absurd hg hng, fun _ => by simp, fun _ => by simp⟩
    · exact ⟨fun _ => by simp, fun htg => absurd hg htg, fun _ => by simp⟩
    · exact ⟨fun _ => by simp, fun _ => by simp, fun hvg => absurd hg hvg⟩

/-- C9 witness: in the one-vertex model, the face referencing vertex 0
produces exactly the in-bounds vertex-pool access, and it satisfies the
bound. -/
theorem render_face_pool_safety_witness :
    (⟨0, 0⟩ : Access) ∈ render_face_accesses mOneVertex fOneCorner ∧
      ((0 : Nat) = 0 → (0 : Nat) < mOneVertex.vertices.length) :=
  ⟨by decide, fun _ =>
    ((render_face_pool_safety mOneVertex fOneCorner).1 ⟨0, 0⟩ (by decide)).1 rfl⟩

/-! ## Lemmas about the texture cache -/

/-- Looking up the key just inserted yields the inserted value. -/
theorem dictGet?_insert_self {α : Type} (d : List (String × α)) (k : String) (v : α) :
    dictGet? (dictInsert d k v) k = some v := by
  simp [dictGet?, dictInsert, List.find?]

/-- Inserting one key leaves lookups of other keys unchanged. -/
theorem dictGet?_insert_ne {α : Type} (d : List (String × α)) (k q : String) (v : α)
    (h : q ≠ k) : dictGet? (dictInsert d k v) q = dictGet? d q := by
  have hkq : (decide ((k, v).1 = q)) = false := by
    simp only [decide_eq_false_iff_not]
    exact fun he => h he.symm
  simp [dictGet?, dictInsert, List.find?, hkq]

/-- Invariant tying the upload log to the cache: path `p` has been
uploaded at most once, and only if it is cached. -/
def TexInv (st : TexState) (p : String) : Prop :=
  st.uploads.count p ≤ 1 ∧
    (dictGet? st.texture_cache p = none → st.uploads.count p = 0)

/-- One call of `_load_texture` preserves the upload/cache invariant. -/
theorem load_texture_preserves_TexInv (d : Disk) (st : TexState) (p q : String)
    (h : TexInv st p) : TexInv (load_texture d st q).2 p := by
  unfold load_texture
  cases hq : dictGet? st.texture_cache q with
  | some handle => exact h
  | none =>
    dsimp only
    by_cases he : (d.files q).isNone = true
    · rw [if_pos he]; exact h
    · rw [if_neg he]
      by_cases hd : d.decodeOk q = true
      · rw [if_pos hd]
        dsimp only
        by_cases hpq : q = p
        · subst hpq
          have h0 : st.uploads.count q = 0 := h.2 hq
          constructor
          · rw [List.count_append, h0]
            simp
          · intro hc
            rw [dictGet?_insert_self] at hc
            cases hc
        · have hcount : (st.uploads ++ [q]).count p = st.uploads.count p := by
            rw [List.count_append]
            simp [List.count_singleton']
            intro he'
            exact absurd he' hpq
          constructor
          · rw [hcount]; exact h.1
          · intro hc
            rw [dictGet?_insert_ne st.texture_cache q p st.nextId
              (fun he' => hpq he'.symm)] at hc
            rw [hcount]
            exact h.2 hc
      · rw [if_neg hd]; exact h

/-- A whole session of loads preserves the upload/cache invariant. -/
theorem runLoads_TexInv (d : Disk) (ps : List String) (st : TexState) (p : String)
    (h : TexInv st p) : TexInv (runLoads d st ps) p := by
  induction ps generalizing st with
  | nil => exact h
  | cons q ps ih => exact ih _ (load_texture_preserves_TexInv d _ p q h)

/-- C5: once a texture at path `p` has been loaded successfully (so `p` is
cached with its handle), every further call for `p` returns the identical
handle and leaves the loader state — in particular the upload log —
untouched; and over any session starting from a fresh loader, at most one
upload is performed per distinct path. -/
theorem texture_cache_hit_no_reupload (d : Disk) (ps : List String) (p : String)
    (st : TexState) (handle : Nat)
    (hc : dictGet? st.texture_cache p = some handle) :
    load_texture d st p = (handle, st) ∧
      (runLoads d initTexState ps).uploads.count p ≤ 1 := by
  constructor
  · unfold load_texture
    rw [hc]
  · exact (runLoads_TexInv d ps initTexState p
      ⟨by simp [initTexState], fun _ => by simp [initTexState]⟩).1

/-- C5 witness: on a disk where everything decodes, loading `a` twice
uploads once; with `a` cached at handle 1, a further call returns handle 1
and the state unchanged. -/
theorem texture_cache_hit_no_reupload_witness :
    dictGet? stOneLoad.texture_cache "a" = some 1 ∧
      (load_texture dAllOk stOneLoad "a" = (1, stOneLoad) ∧
        (runLoads dAllOk initTexState ["a", "a"]).uploads.count "a" ≤ 1) :=
  ⟨by decide, texture_cache_hit_no_reupload dAllOk ["a", "a"] "a" stOneLoad 1 (by decide)⟩

/-- Soundness of the cache with respect to the disk: only paths that exist
on disk ever get cached. -/
def CacheOnDisk (d : Disk) (st : TexState) : Prop :=
  ∀ q handle, dictGet? st.texture_cache q = some handle → (d.files q).isSome = true

/-- One call of `_load_texture` caches only existing paths. -/
theorem load_texture_preserves_CacheOnDisk (d : Disk) (st : TexState) (q : String)
    (h : CacheOnDisk d st) : CacheOnDisk d (load_texture d st q).2 := by
  unfold load_texture
  cases hq : dictGet? st.texture_cache q with
  | some handle => exact h
  | none =>
    dsimp only
    by_cases he : (d.files q).isNone = true
    · rw [if_pos he]; exact h
    · rw [if_neg he]
      by_cases hd : d.decodeOk q = true
      · rw [if_pos hd]
        intro r handle hr
        by_cases hrq : r = q
        · subst hrq
          cases hx : d.files r with
          | none => rw [hx] at he; exact absurd rfl he
          | some _ => rfl
        · rw [dictGet?_insert_ne st.texture_cache q r st.nextId hrq] at hr
          exact h r handle hr
      · rw [if_neg hd]; exact h

/-- A whole session caches only existing paths. -/
theorem runLoads_CacheOnDisk (d : Disk) (ps : List String) (st : TexState)
    (h : CacheOnDisk d st) : CacheOnDisk d (runLoads d st ps) := by
  induction ps generalizing st with
  | nil => exact h
  | cons q ps ih => exact ih _ (load_texture_preserves_CacheOnDisk d _ q h)

/-- C6: for a path that does not exist on disk, the texture loader — in
any state reachable in a session from a fresh loader — returns the
sentinel handle 0 and leaves the state unchanged; no exception escapes
(the model is a total function because the Python body catches them
all and only prints a warning). -/
theorem missing_texture_returns_zero (d : Disk) (ps : List String) (p : String)
    (hp : d.files p = none) :
    load_texture d (runLoads d initTexState ps) p = (0, runLoads d initTexState ps) := by
  have hsound : CacheOnDisk d (runLoads d initTexState ps) :=
    runLoads_CacheOnDisk d ps initTexState
      (fun q handle hq => by simp [initTexState, dictGet?] at hq)
  have hcache : dictGet? (runLoads d initTexState ps).texture_cache p = none := by
    cases hc : dictGet? (runLoads d initTexState ps).texture_cache p with
    | none => rfl
    | some handle =>
      have := hsound p handle hc
      rw [hp] at this
      cases this
  unfold load_texture
  rw [hcache]
  dsimp only
  rw [if_pos (by rw [hp]; rfl)]

/-- C6 witness: on a disk with no files, resolving `/nonexistent.png` from
a fresh loader returns the sentinel handle 0 without raising. -/
theorem missing_texture_returns_zero_witness :
    dNone.files "/nonexistent.png" = none ∧
      load_texture dNone (runLoads dNone initTexState []) "/nonexistent.png" =
        (0, runLoads dNone initTexState []) :=
  ⟨rfl, missing_texture_returns_zero dNone [] "/nonexistent.png" rfl⟩

/-! ## Lemmas about the material resolver -/

/-- With no current material, the resolver loop fails with the header
error as soon as the first effective line is not a `newmtl` line. -/
theorem load_mtl_aux_header (d : Disk) (base : String) (lines : List String)
    (ts : List String) (mats : List (String × Mtl)) (st : TexState)
    (he : firstEffectiveTokens lines = some ts) (hk : ts.head? ≠ some "newmtl") :
    load_mtl_aux d base lines mats none st = .error mtlHeaderErr := by
  induction lines generalizing mats st with
  | nil => simp [firstEffectiveTokens] at he
  | cons line rest ih =>
    simp only [firstEffectiveTokens] at he
    simp only [load_mtl_aux]
    by_cases hskip : strip line = "" ∨ startsWithHash (strip line) = true
    · rw [if_pos hskip] at he ⊢
      exact ih mats st he
    · rw [if_neg hskip] at he ⊢
      cases htok : tokenize (strip line) with
      | nil =>
        rw [htok] at he
        dsimp only at he ⊢
        exact ih mats st he
      | cons key args =>
        rw [htok] at he
        dsimp only at he ⊢
        have hts : ts = key :: args := (Option.some.inj he).symm
        have hkey : ¬key = "newmtl" := by
          intro hkey
          exact hk (by rw [hts, hkey]; rfl)
        rw [if_neg hkey]

/-- C8: a material-library file whose first effective (non-blank,
non-comment) line is a property line rather than `newmtl` — equivalently,
one in which some property line precedes the first `newmtl` — makes the
whole material load fail with the header parse error; no material mapping
is returned. -/
theorem mtl_property_before_newmtl_fails (d : Disk) (st : TexState) (fp : String)
    (lines ts : List String)
    (hf : d.files fp = some lines)
    (he : firstEffectiveTokens lines = some ts)
    (hk : ts.head? ≠ some "newmtl") :
    load_mtl d st fp = .error mtlHeaderErr := by
  unfold load_mtl
  rw [hf]
  exact load_mtl_aux_header d (dirname fp) lines ts [] st he hk

/-- C8 witness: the library whose lines are a comment followed by
`Kd 1 0 0` fails as a whole with the header error. -/
theorem mtl_property_before_newmtl_fails_witness :
    dMtlHeadless.files "m.mtl" = some ["# comment", "Kd 1 0 0"] ∧
      firstEffectiveTokens ["# comment", "Kd 1 0 0"] = some ["Kd", "1", "0", "0"] ∧
      (["Kd", "1", "0", "0"] : List String).head? ≠ some "newmtl" ∧
      load_mtl dMtlHeadless initTexState "m.mtl" = .error mtlHeaderErr :=
  ⟨rfl, by decide, by decide,
    mtl_property_before_newmtl_fails dMtlHeadless initTexState "m.mtl"
      ["# comment", "Kd 1 0 0"] ["Kd", "1", "0", "0"] rfl (by decide) (by decide)⟩

/-! ## The matrix claims -/

/-- C1: for every intrinsics matrix, positive viewport and `near ≠ far`,
the flattened projection matrix has `m00 = 2 fx / width`,
`m11 = 2 fy / height`, `m20 = 1 - 2 cx / width`, `m21 = 2 cy / height - 1`,
`m22 = -(far + near) / (far - near)`, `m23 = -1`,
`m32 = -2 far near / (far - near)` (at row-major flat positions 0, 5, 8,
9, 10, 11, 14 respectively), and every other entry is zero. -/
theorem create_projection_matrix_entries (camera_matrix : Fin 3 → Fin 3 → ℚ)
    (w h near far : ℚ) (hw : 0 < w) (hh : 0 < h) (hnf : near ≠ far) :
    (create_projection_matrix camera_matrix (w, h) near far).get? 0 =
        some (2 * camera_matrix 0 0 / w) ∧
      (create_projection_matrix camera_matrix (w, h) near far).get? 5 =
        some (2 * camera_matrix 1 1 / h) ∧
      (create_projection_matrix camera_matrix (w, h) near far).get? 8 =
        some (1 - 2 * camera_matrix 0 2 / w) ∧
      (create_projection_matrix camera_matrix (w, h) near far).get? 9 =
        some (2 * camera_matrix 1 2 / h - 1) ∧
      (create_projection_matrix camera_matrix (w, h) near far).get? 10 =
        some (-(far + near) / (far - near)) ∧
      (create_projection_matrix camera_matrix (w, h) near far).get? 11 =
        some (-1) ∧
      (create_projection_matrix camera_matrix (w, h) near far).get? 14 =
        some (-(2 * far * near) / (far - near)) ∧
      (∀ k : Nat, k < 16 → k ∉ ([0, 5, 8, 9, 10, 11, 14] : List Nat) →
        (create_projection_matrix camera_matrix (w, h) near far).get? k = some 0) := by
  refine ⟨?_, ?_, ?_, ?_, ?_, ?_, ?_, ?_⟩
  · norm_num [create_projection_matrix, flatten4, projectionEntry, Fin.ext_iff,
      show ((0 : Fin 4) : Nat) = 0 from rfl, show ((1 : Fin 4) : Nat) = 1 from rfl,
      show ((2 : Fin 4) : Nat) = 2 from rfl, show ((3 : Fin 4) : Nat) = 3 from rfl,
      show ((0 : Fin 3) : Nat) = 0 from rfl, show ((1 : Fin 3) : Nat) = 1 from rfl,
      show ((2 : Fin 3) : Nat) = 2 from rfl]
  · norm_num [create_projection_matrix, flatten4, projectionEntry, Fin.ext_iff,
      show ((0 : Fin 4) : Nat) = 0 from rfl, show ((1 : Fin 4) : Nat) = 1 from rfl,
      show ((2 : Fin 4) : Nat) = 2 from rfl, show ((3 : Fin 4) : Nat) = 3 from rfl,
      show ((0 : Fin 3) : Nat) = 0 from rfl, show ((1 : Fin 3) : Nat) = 1 from rfl,
      show ((2 : Fin 3) : Nat) = 2 from rfl]
  · norm_num [create_projection_matrix, flatten4, projectionEntry, Fin.ext_iff,
      show ((0 : Fin 4) : Nat) = 0 from rfl, show ((1 : Fin 4) : Nat) = 1 from rfl,
      show ((2 : Fin 4) : Nat) = 2 from rfl, show ((3 : Fin 4) : Nat) = 3 from rfl,
      show ((0 : Fin 3) : Nat) = 0 from rfl, show ((1 : Fin 3) : Nat) = 1 from rfl,
      show ((2 : Fin 3) : Nat) = 2 from rfl]
  · norm_num [create_projection_matrix, flatten4, projectionEntry, Fin.ext_iff,
      show ((0 : Fin 4) : Nat) = 0 from rfl, show ((1 : Fin 4) : Nat) = 1 from rfl,
      show ((2 : Fin 4) : Nat) = 2 from rfl, show ((3 : Fin 4) : Nat) = 3 from rfl,
      show ((0 : Fin 3) : Nat) = 0 from rfl, show ((1 : Fin 3) : Nat) = 1 from rfl,
      show ((2 : Fin 3) : Nat) = 2 from rfl]
  · norm_num [create_projection_matrix, flatten4, projectionEntry, Fin.ext_iff,
      show ((0 : Fin 4) : Nat) = 0 from rfl, show ((1 : Fin 4) : Nat) = 1 from rfl,
      show ((2 : Fin 4) : Nat) = 2 from rfl, show ((3 : Fin 4) : Nat) = 3 from rfl,
      show ((0 : Fin 3) : Nat) = 0 from rfl, show ((1 : Fin 3) : Nat) = 1 from rfl,
      show ((2 : Fin 3) : Nat) = 2 from rfl]
  · norm_num [create_projection_matrix, flatten4, projectionEntry, Fin.ext_iff,
      show ((0 : Fin 4) : Nat) = 0 from rfl, show ((1 : Fin 4) : Nat) = 1 from rfl,
      show ((2 : Fin 4) : Nat) = 2 from rfl, show ((3 : Fin 4) : Nat) = 3 from rfl,
      show ((0 : Fin 3) : Nat) = 0 from rfl, show ((1 : Fin 3) : Nat) = 1 from rfl,
      show ((2 : Fin 3) : Nat) = 2 from rfl]
  · norm_num [create_projection_matrix, flatten4, projectionEntry, Fin.ext_iff,
      show ((0 : Fin 4) : Nat) = 0 from rfl, show ((1 : Fin 4) : Nat) = 1 from rfl,
      show ((2 : Fin 4) : Nat) = 2 from rfl, show ((3 : Fin 4) : Nat) = 3 from rfl,
      show ((0 : Fin 3) : Nat) = 0 from rfl, show ((1 : Fin 3) : Nat) = 1 from rfl,
      show ((2 : Fin 3) : Nat) = 2 from rfl]
  · intro k hk hmem
    interval_cases k <;>
      first
        | exact absurd (by decide) hmem
        | norm_num [create_projection_matrix, flatten4, projectionEntry, Fin.ext_iff,
      show ((0 : Fin 4) : Nat) = 0 from rfl, show ((1 : Fin 4) : Nat) = 1 from rfl,
      show ((2 : Fin 4) : Nat) = 2 from rfl, show ((3 : Fin 4) : Nat) = 3 from rfl,
      show ((0 : Fin 3) : Nat) = 0 from rfl, show ((1 : Fin 3) : Nat) = 1 from rfl,
      show ((2 : Fin 3) : Nat) = 2 from rfl]

/-- C1 witness: intrinsics `fx = fy = 800`, `cx = 320`, `cy = 240` with a
640 by 480 viewport and depth range `[0.01, 1000]` yield `m00 = 5/2`,
`m11 = 10/3 = 3.333...`, `m20 = 0`, `m21 = 0`, `m22 = -100001/99999`
(within 1/100000 of -1.00002), `m23 = -1` and `m32 = -2000/99999` (within
1/10000 of -0.02). -/
theorem create_projection_matrix_entries_witness :
    (0 : ℚ) < 640 ∧ (0 : ℚ) < 480 ∧ ((1 : ℚ)/100) ≠ 1000 ∧
      (create_projection_matrix camEx (640, 480) (1/100) 1000).get? 0 = some (5/2) ∧
      (create_projection_matrix camEx (640, 480) (1/100) 1000).get? 5 = some (10/3) ∧
      (create_projection_matrix camEx (640, 480) (1/100) 1000).get? 8 = some 0 ∧
      (create_projection_matrix camEx (640, 480) (1/100) 1000).get? 9 = some 0 ∧
      (create_projection_matrix camEx (640, 480) (1/100) 1000).get? 10 =
        some (-(100001/99999)) ∧
      (create_projection_matrix camEx (640, 480) (1/100) 1000).get? 11 = some (-1) ∧
      (create_projection_matrix camEx (640, 480) (1/100) 1000).get? 14 =
        some (-(2000/99999)) ∧
      |(-(100001/99999) : ℚ) + 100002/100000| < 1/100000 ∧
      |(-(2000/99999) : ℚ) + 2/100| < 1/10000 := by
  obtain ⟨h0, h5, h8, h9, h10, h11, h14, -⟩ :=
    create_projection_matrix_entries camEx 640 480 (1/100) 1000
      (by norm_num) (by norm_num) (by norm_num)
  refine ⟨by norm_num, by norm_num, by norm_num, ?_, ?_, ?_, ?_, ?_, ?_, ?_,
    by rw [abs_of_nonpos (by norm_num)]; norm_num,
    by rw [abs_of_nonpos (by norm_num)]; norm_num⟩
  · rw [h0]; norm_num [camEx, Fin.ext_iff,
    show ((0 : Fin 3) : Nat) = 0 from rfl, show ((1 : Fin 3) : Nat) = 1 from rfl,
    show ((2 : Fin 3) : Nat) = 2 from rfl]
  · rw [h5]; norm_num [camEx, Fin.ext_iff,
    show ((0 : Fin 3) : Nat) = 0 from rfl, show ((1 : Fin 3) : Nat) = 1 from rfl,
    show ((2 : Fin 3) : Nat) = 2 from rfl]
  · rw [h8]; norm_num [camEx, Fin.ext_iff,
    show ((0 : Fin 3) : Nat) = 0 from rfl, show ((1 : Fin 3) : Nat) = 1 from rfl,
    show ((2 : Fin 3) : Nat) = 2 from rfl]
  · rw [h9]; norm_num [camEx, Fin.ext_iff,
    show ((0 : Fin 3) : Nat) = 0 from rfl, show ((1 : Fin 3) : Nat) = 1 from rfl,
    show ((2 : Fin 3) : Nat) = 2 from rfl]
  · rw [h10]; norm_num
  · rw [h11]
  · rw [h14]; norm_num

/-- C7: `create_model_matrix` applied to the rotation matrix of the zero
rotation vector (the identity rotation), the zero translation and the
identity coordinate transform returns the flattened 4x4 identity matrix
(the transpose of the identity being the identity). -/
theorem create_model_matrix_identity :
    create_model_matrix rodrigues_zero (fun _ => 0) idMat3 =
      [1, 0, 0, 0, 0, 1, 0, 0, 0, 0, 1, 0, 0, 0, 0, 1] := by
  norm_num [create_model_matrix, flatten4, embed34, mul33x34, hstack34,
    rodrigues_zero, idMat3, Fin.ext_iff,
    show ((0 : Fin 4) : ℕ) = 0 from rfl, show ((1 : Fin 4) : ℕ) = 1 from rfl,
    show ((2 : Fin 4) : ℕ) = 2 from rfl, show ((3 : Fin 4) : ℕ) = 3 from rfl,
    show ((0 : Fin 3) : ℕ) = 0 from rfl, show ((1 : Fin 3) : ℕ) = 1 from rfl,
    show ((2 : Fin 3) : ℕ) = 2 from rfl]

end VrAruco
